import Mathlib

/-!
Verification of the dropbox-go client library against its specification.

The Go source is shallowly embedded: pure helpers become Lean functions,
HTTP responses become explicit records, `encoding/json` values become an
inductive `JVal`, and the relevant standard-library routines
(`path.Clean` / `path.Join`, `time.Format` / `time.Parse` for the
`RFC1123Z` layout) are translated at the level at which the library
observes them.
-/

set_option maxHeartbeats 1000000

namespace DropboxGo

/-! ## Go `path` package (lexical path algebra)

`path.Clean` processes a slash-separated path lexically: empty and `.`
elements are dropped, `..` pops the previous real element, and a rooted
path never pops above `/`.  We model it in its standard segment form:
split on `/`, run the element stack machine, re-join.  `path.Join`
concatenates the elements from the first non-empty one with `/` and
Cleans the result.
-/

/-- Split a character list on `/`, keeping empty components. -/
def splitSlashAux : List Char → List Char → List String
  | [], cur => [String.mk cur.reverse]
  | '/' :: rest, cur => String.mk cur.reverse :: splitSlashAux rest []
  | c :: rest, cur => splitSlashAux rest (c :: cur)

/-- Segments of a path: split on `/` with empty components dropped. -/
def splitSegs (s : String) : List String :=
  (splitSlashAux s.data []).filter (fun x => x ≠ "")

/-- Join path segments with `/` (Go `strings.Join(l, "/")`). -/
def joinSegs : List String → String
  | [] => ""
  | [s] => s
  | s :: rest => s ++ "/" ++ joinSegs rest

/-- A real path element: not empty, not `.`, not `..`. -/
def segOK (s : String) : Bool :=
  s != "" && s != "." && s != ".."

/-- The element stack machine of Go `path.Clean`.  `acc` is the output
stack; `..` pops a poppable element, is dropped at the root of a rooted
path, and is kept (appended) in an unrooted path. -/
def cleanSegsAux (rooted : Bool) : List String → List String → List String
  | acc, [] => acc
  | acc, s :: rest =>
    if s = "" ∨ s = "." then cleanSegsAux rooted acc rest
    else if s = ".." then
      match acc.getLast? with
      | some t =>
        if t = ".." then
          if rooted then cleanSegsAux rooted acc rest
          else cleanSegsAux rooted (acc ++ [".."]) rest
        else cleanSegsAux rooted acc.dropLast rest
      | none =>
        if rooted then cleanSegsAux rooted acc rest
        else cleanSegsAux rooted (acc ++ [".."]) rest
    else cleanSegsAux rooted (acc ++ [s]) rest

/-- Whether the path begins with a slash (Go: `path[0] == '/'`). -/
def isRooted (p : String) : Bool :=
  match p.data with
  | '/' :: _ => true
  | _ => false

/-- Go `path.Clean`, in segment form. -/
def goClean (p : String) : String :=
  if p = "" then "."
  else
    let rooted := isRooted p
    let segs := cleanSegsAux rooted [] (splitSegs p)
    if segs = [] then
      if rooted then "/" else "."
    else
      (if rooted then "/" else "") ++ joinSegs segs

/-- Go `path.Join`: join the elements from the first non-empty one with
slashes and Clean the result; all-empty input gives `""`. -/
def goJoin (elems : List String) : String :=
  match elems.dropWhile (fun e => e = "") with
  | [] => ""
  | l => goClean (joinSegs l)

/-- `Client.filePath` from `client_util.go`:
`path.Clean(path.Join("/", string(c.root), p))`. -/
def filePath (root p : String) : String :=
  goClean (goJoin ["/", root, p])

/-- The `AccessRoot` constant `DropboxRoot`. -/
def DropboxRoot : String := "dropbox"

/-- The `AccessRoot` constant `SandboxRoot` (= `AppFolderRoot`). -/
def SandboxRoot : String := "sandbox"

/-- The segment list of a cleaned `filePath` result. -/
def filePathSegs (root p : String) : List String :=
  cleanSegsAux true [] (splitSegs (goJoin ["/", root, p]))

/-! ## JSON values

`encoding/json` is embedded at the value level: a response body is
either empty, malformed (text that is not JSON), or a JSON value.
Decoding into a Go struct is translated field fold by field fold, with
Go's semantics: unknown keys are ignored, later duplicate keys win,
`null` leaves the target field unchanged, and a type mismatch is a
decode error.
-/

inductive JVal where
  | null
  | bool (b : Bool)
  | num (n : Int)
  | str (s : String)
  | arr (elems : List JVal)
  | obj (fields : List (String × JVal))
  deriving Repr, Inhabited

inductive Body where
  | empty
  | malformed
  | val (v : JVal)
  deriving Repr, Inhabited

/-- An `APIError` value (`client_util.go`): `Code` is set from the HTTP
status by the caller, `Message` is the JSON `error` field. -/
structure APIError where
  code : Nat
  message : String
  deriving Repr, DecidableEq

/-- Outcome of `json.Decode(&apierr)` where `apierr : *APIError`. -/
inductive APIDecode where
  | ok (msg : String)
  | setNil
  | eof
  | fail
  deriving Repr, DecidableEq

/-- One step of decoding a JSON object into the `APIError` struct:
only the `error` key is known and must be a string (or `null`, which
leaves the message unchanged). -/
def applyAPIErrField : Option String → String × JVal → Option String
  | none, _ => none
  | some m, (k, v) =>
    if k = "error" then
      match v with
      | .str s => some s
      | .null => some m
      | _ => none
    else some m

/-- `json.NewDecoder(body).Decode(&apierr)`: empty body gives `io.EOF`,
JSON `null` sets the pointer to nil, an object fills the message field,
anything else is a decode error. -/
def decodeAPIErr : Body → APIDecode
  | .empty => .eof
  | .malformed => .fail
  | .val .null => .setNil
  | .val (.obj fields) =>
    match fields.foldl applyAPIErrField (some "") with
    | some m => .ok m
    | none => .fail
  | .val _ => .fail

/-- What `parseJSON` (client_util.go) returns: the decoded target on
200, an `*APIError` with the status code otherwise — except that a
non-EOF decode failure is returned as-is, and a JSON `null` error body
produces a nil `*APIError`. -/
inductive ParseOutcome (α : Type) where
  | success (a : α)
  | apiError (e : APIError)
  | nilAPIError
  | decodeError
  deriving Repr, DecidableEq

/-- `parseJSON` from `client_util.go`, generic in the target decoder. -/
def parseJSON {α : Type} (decTarget : Body → Option α) (status : Nat)
    (b : Body) : ParseOutcome α :=
  if status = 200 then
    match decTarget b with
    | some a => .success a
    | none => .decodeError
  else
    match decodeAPIErr b with
    | .ok msg => .apiError ⟨status, msg⟩
    | .eof => .apiError ⟨status, ""⟩
    | .setNil => .nilAPIError
    | .fail => .decodeError

/-- Whether a `ParseOutcome` is an `APIError` carrying status `c`. -/
def isAPIErrorWithCode {α : Type} (r : ParseOutcome α) (c : Nat) : Bool :=
  match r with
  | .apiError e => e.code == c
  | _ => false

/-! ## `checkResponse` (client_util.go) -/

structure HTTPResponse where
  statusCode : Nat
  requestPath : String
  deriving Repr, DecidableEq

inductive CheckOutcome where
  | pass (r : HTTPResponse)
  | authError (context : String) (cause : String)
  deriving Repr, DecidableEq

/-- `checkResponse`: on 401 return an `AuthorizationError` whose context
is `response.Request.URL.Path[3:]` (byte slice past the `/1` version
prefix and its slash) and drain-and-close the body (second component);
otherwise pass the response through untouched. -/
def checkResponse (r : HTTPResponse) : CheckOutcome × Bool :=
  if r.statusCode = 401 then
    (.authError (String.mk (r.requestPath.data.drop 3)) "bad or expired token", true)
  else (.pass r, false)

/-! ## Session (dropbox/session.go) -/

structure Credentials where
  token : String
  secret : String
  deriving Repr, DecidableEq, Inhabited

/-- A `Session` as the claims observe it: the two credential slots and
the locale.  The OAuth client and HTTP client are passed abstractly to
the operations that use them. -/
structure Session where
  requestToken : Option Credentials
  accessToken : Option Credentials
  locale : String
  deriving Repr, DecidableEq

/-- `Session.Authorized`: an access credential pair is present. -/
def Session.Authorized (s : Session) : Bool :=
  s.accessToken.isSome

abbrev Params := List (String × String)

/-- `url.Values.Set`: replace any existing entry for the key. -/
def setParam (ps : Params) (key value : String) : Params :=
  ps.filter (fun kv => kv.1 ≠ key) ++ [(key, value)]

/-- `url.Values.Get`: first value stored under the key, if any. -/
def lookupParam (ps : Params) (key : String) : Option String :=
  ((ps.filter (fun kv => kv.1 = key)).head?).map (fun kv => kv.2)

/-- `Session.makeParams`: fresh set, locale injected when requested and
configured. -/
def makeParams (s : Session) (locale : Bool) : Params :=
  if locale ∧ s.locale ≠ "" then setParam [] "locale" s.locale else []

/-- `Session.signParam`: error without touching the parameters when the
session holds no access pair, otherwise delegate to the OAuth signer
(`sign`, abstract here) with the access pair. -/
def signParam (sign : Credentials → String → String → Params → Params)
    (s : Session) (method url : String) (params : Params) :
    Params × Option String :=
  if !s.Authorized then (params, some "session not authorized")
  else (sign (s.accessToken.getD default) method url params, none)

/-- `Session.GetAccessTokenCallback`: exchange the caller-supplied
request pair (+ verifier) via the OAuth client (`call`, abstract) and
unconditionally store the new access pair on success. -/
def GetAccessTokenCallback
    (call : Credentials → String → Except String Credentials)
    (s : Session) (requestToken : Credentials) (verifier : String) :
    Session × Option String :=
  match call requestToken verifier with
  | .error e => (s, some e)
  | .ok cred => ({ s with accessToken := some cred }, none)

/-- `Session.GetAccessToken`: no-op when already authorized; errors when
no request pair is stored; otherwise exchanges the stored request pair. -/
def GetAccessToken
    (call : Credentials → String → Except String Credentials)
    (s : Session) : Session × Option String :=
  if s.Authorized then (s, none)
  else
    match s.requestToken with
    | none => (s, some "no request token")
    | some rt =>
      match call rt "" with
      | .error e => (s, some e)
      | .ok cred => ({ s with accessToken := some cred }, none)

/-! ## Decimal formatting (Go `strconv`, `appendInt`) -/

/-- The decimal digit character for `n < 10`. -/
def decDigit (n : Nat) : Char := Char.ofNat (48 + n)

/-- Digits of `n`, most significant first; structural fuel (24 covers
every 64-bit value, i.e. all of Go's integer domain). -/
def natDigitsAux : Nat → Nat → List Char
  | 0, _ => []
  | fuel + 1, n =>
    if n < 10 then [decDigit n]
    else natDigitsAux fuel (n / 10) ++ [decDigit (n % 10)]

def natDigits (n : Nat) : List Char := natDigitsAux 24 n

def decimal (n : Nat) : String := String.mk (natDigits n)

/-- Go `strconv.FormatInt(i, 10)`. -/
def formatInt (i : Int) : String :=
  if i < 0 then "-" ++ decimal i.natAbs else decimal i.toNat

/-- Go `strconv.FormatBool`. -/
def formatBool (b : Bool) : String := if b then "true" else "false"

/-! ## Endpoint parameter builders (client.go) -/

/-- The parameter set built by `Client.Metadata`. -/
def metadataParams (s : Session) (fileLimit : Int) (hash : String)
    (list deleted : Bool) (rev : String) : Params :=
  let params := makeParams s true
  let params := if fileLimit > 0 then setParam params "file_limit" (formatInt fileLimit) else params
  let params := if hash ≠ "" then setParam params "hash" hash else params
  let params := if !list then setParam params "list" "false" else params
  let params := if deleted then setParam params "include_deleted" "true" else params
  let params := if rev ≠ "" then setParam params "rev" rev else params
  params

/-- The parameter set built by `Client.PutFile`. -/
def putFileParams (s : Session) (overwrite : Bool) (parentRev : String) : Params :=
  let params := makeParams s true
  let params := if overwrite then setParam params "overwrite" "true" else params
  let params := if parentRev ≠ "" then setParam params "parent_rev" parentRev else params
  params

/-- The parameter set built by `Client.CommitChunkedUpload`: note that
`overwrite` is always set, via `strconv.FormatBool`. -/
def commitChunkedUploadParams (s : Session) (overwrite : Bool)
    (parentRev uploadId : String) : Params :=
  let params := makeParams s true
  let params := setParam params "overwrite" (formatBool overwrite)
  let params := if parentRev ≠ "" then setParam params "parent_rev" parentRev else params
  let params := setParam params "upload_id" uploadId
  params

/-- The parameter set built by `Client.ChunkedUpload`. -/
def chunkedUploadParams (s : Session) (uploadId : String) (offset : Int) : Params :=
  let params := makeParams s false
  let params :=
    if uploadId ≠ "" then
      setParam (setParam params "upload_id" uploadId) "offset" (formatInt offset)
    else params
  params

/-! ## Go `time`: the `RFC1123Z` layout

`Time` (client_util.go) wraps a `time.Time` and marshals through
`time.Format(time.RFC1123Z)` / `time.Parse(time.RFC1123Z)` with layout
`"Mon, 02 Jan 2006 15:04:05 -0700"`.  A time value is embedded by its
civil decomposition in its own zone — year, month, day, hour, minute,
second, plus the zone offset in seconds east of UTC — which determines
the instant to one-second resolution.  `Format` and `Parse` act on
exactly these fields.
-/

structure GoTime where
  year : Int
  month : Nat
  day : Nat
  hour : Nat
  minute : Nat
  second : Nat
  offset : Int
  deriving Repr, DecidableEq, Inhabited

/-- The zero `time.Time`: January 1, year 1, 00:00:00 UTC. -/
def zeroGoTime : GoTime := ⟨1, 1, 1, 0, 0, 0, 0⟩

def shortDayNames : List String :=
  ["Sun", "Mon", "Tue", "Wed", "Thu", "Fri", "Sat"]

def shortMonthNames : List String :=
  ["Jan", "Feb", "Mar", "Apr", "May", "Jun",
   "Jul", "Aug", "Sep", "Oct", "Nov", "Dec"]

/-- Leap year in the proleptic Gregorian calendar (Go `isLeap`). -/
def isLeap (y : Int) : Bool :=
  y % 4 == 0 && (y % 100 != 0 || y % 400 == 0)

/-- Days in a month (Go `daysIn`). -/
def daysIn (m : Nat) (y : Int) : Nat :=
  if m = 2 then (if isLeap y then 29 else 28)
  else if m = 4 ∨ m = 6 ∨ m = 9 ∨ m = 11 then 30
  else 31

/-- Day of the week (0 = Sunday) of a proleptic Gregorian date,
Sakamoto's congruence (Go computes the same function from absolute
days). -/
def weekdayIdx (y : Int) (m d : Nat) : Nat :=
  let tab : List Nat := [0, 3, 2, 5, 0, 3, 5, 1, 4, 6, 2, 4]
  let y := if m < 3 then y - 1 else y
  (((y + y / 4 - y / 100 + y / 400) % 7).toNat + tab.getD (m - 1) 0 + d) % 7

/-- Zero-pad digits to width `w` (Go `appendInt` padding). -/
def padDigits (w : Nat) (ds : List Char) : List Char :=
  List.replicate (w - ds.length) '0' ++ ds

/-- Go `appendInt(b, x, w)` for a non-negative value. -/
def appendNat (w : Nat) (n : Nat) : List Char := padDigits w (natDigits n)

/-- Go `appendInt(b, x, w)`: minus sign, then zero-padded digits. -/
def appendInt (w : Nat) (i : Int) : List Char :=
  if i < 0 then '-' :: appendNat w i.natAbs else appendNat w i.toNat

/-- Go `offset / 60` (truncating integer division). -/
def zoneMinutes (off : Int) : Int :=
  if off < 0 then -((off.natAbs / 60 : Nat) : Int) else ((off.toNat / 60 : Nat) : Int)

/-- The `-0700` layout chunk of `Format`: sign from the minute count,
then two-digit hours and minutes; offset seconds are discarded. -/
def fmtZone (off : Int) : List Char :=
  let zm := zoneMinutes off
  if zm < 0 then '-' :: (appendNat 2 (zm.natAbs / 60) ++ appendNat 2 (zm.natAbs % 60))
  else '+' :: (appendNat 2 (zm.toNat / 60) ++ appendNat 2 (zm.toNat % 60))

/-- `time.Format(time.RFC1123Z)` on the civil fields. -/
def fmtRFC1123Z (t : GoTime) : List Char :=
  (shortDayNames.getD (weekdayIdx t.year t.month t.day) "Sun").data ++
    [',', ' '] ++ appendNat 2 t.day ++ [' '] ++
    (shortMonthNames.getD (t.month - 1) "Jan").data ++ [' '] ++
    appendInt 4 t.year ++ [' '] ++
    appendNat 2 t.hour ++ [':'] ++ appendNat 2 t.minute ++ [':'] ++
    appendNat 2 t.second ++ [' '] ++ fmtZone t.offset

def timeFormatRFC1123Z (t : GoTime) : String := String.mk (fmtRFC1123Z t)

/-- ASCII lower-casing by setting bit 0x20 (Go `match` in `lookup`). -/
def asciiLower (n : Nat) : Nat := n ||| 32

/-- Case-insensitive ASCII character comparison used by Go's name
`lookup`. -/
def charMatch (c1 c2 : Char) : Bool :=
  c1 == c2 ||
    (asciiLower c1.toNat == asciiLower c2.toNat &&
      decide (97 ≤ asciiLower c1.toNat) && decide (asciiLower c1.toNat ≤ 122))

/-- Strip a (case-folded) expected word from the front of the input. -/
def stripFold : List Char → List Char → Option (List Char)
  | [], cs => some cs
  | _ :: _, [] => none
  | p :: ps, c :: cs => if charMatch c p then stripFold ps cs else none

/-- Go `lookup`: first table entry that is a (case-folded) prefix of the
input; returns its index and the rest of the input. -/
def lookupTab : List String → Nat → List Char → Option (Nat × List Char)
  | [], _, _ => none
  | n :: rest, i, cs =>
    match stripFold n.data cs with
    | some cs2 => some (i, cs2)
    | none => lookupTab rest (i + 1) cs

/-- An exact layout separator character. -/
def expectChar (c : Char) : List Char → Option (List Char)
  | c2 :: cs => if c2 = c then some cs else none
  | [] => none

def digitVal (c : Char) : Option Nat :=
  if 48 ≤ c.toNat ∧ c.toNat ≤ 57 then some (c.toNat - 48) else none

/-- `getnum` with a fixed two-digit field (`02`, `15`, `04`, `05`). -/
def parse2 : List Char → Option (Nat × List Char)
  | c1 :: c2 :: cs =>
    match digitVal c1, digitVal c2 with
    | some d1, some d2 => some (d1 * 10 + d2, cs)
    | _, _ => none
  | _ => none

/-- The four-digit year field (`2006`): exactly four digits, no sign. -/
def parse4 : List Char → Option (Nat × List Char)
  | c1 :: c2 :: c3 :: c4 :: cs =>
    match digitVal c1, digitVal c2, digitVal c3, digitVal c4 with
    | some d1, some d2, some d3, some d4 =>
        some (((d1 * 10 + d2) * 10 + d3) * 10 + d4, cs)
    | _, _, _, _ => none
  | _ => none

/-- The `-0700` layout chunk of `Parse`: a sign, two hour digits, two
minute digits; offset = ±(hh·60+mm)·60 seconds. -/
def parseZone : List Char → Option (Int × List Char)
  | c :: cs =>
    match parse2 cs with
    | some (h, cs2) =>
      match parse2 cs2 with
      | some (m, cs3) =>
        let off : Int := ((h * 3600 + m * 60 : Nat) : Int)
        if c = '+' then some (off, cs3)
        else if c = '-' then some (-off, cs3)
        else none
      | none => none
    | none => none
  | [] => none

/-- Day-name, day and month-name fields: `"Mon, 02 Jan "` up to the
year. -/
def parseDayMonth (cs : List Char) : Option (Nat × Nat × List Char) :=
  match lookupTab shortDayNames 0 cs with
  | none => none
  | some (_, cs) =>
    match expectChar ',' cs with
    | none => none
    | some cs =>
      match expectChar ' ' cs with
      | none => none
      | some cs =>
        match parse2 cs with
        | none => none
        | some (d, cs) =>
          match expectChar ' ' cs with
          | none => none
          | some cs =>
            match lookupTab shortMonthNames 0 cs with
            | none => none
            | some (mi, cs) => some (d, mi, cs)

/-- Year field and the space after it: `"2006 "`. -/
def parseYearSp (cs : List Char) : Option (Nat × List Char) :=
  match expectChar ' ' cs with
  | none => none
  | some cs =>
    match parse4 cs with
    | none => none
    | some (y, cs) =>
      match expectChar ' ' cs with
      | none => none
      | some cs => some (y, cs)

/-- Clock fields: `"15:04:05"`. -/
def parseClock (cs : List Char) : Option (Nat × Nat × Nat × List Char) :=
  match parse2 cs with
  | none => none
  | some (hh, cs) =>
    match expectChar ':' cs with
    | none => none
    | some cs =>
      match parse2 cs with
      | none => none
      | some (mm, cs) =>
        match expectChar ':' cs with
        | none => none
        | some cs =>
          match parse2 cs with
          | none => none
          | some (ss, cs) => some (hh, mm, ss, cs)

/-- `time.Parse(time.RFC1123Z, s)` on the character list: the layout is
matched element by element (the weekday name is read and discarded), the
input must be fully consumed, and the parsed day/hour/minute/second must
be in range. -/
def parseRFC1123Zchars (cs : List Char) : Option GoTime :=
  match parseDayMonth cs with
  | none => none
  | some (d, mi, cs) =>
    match parseYearSp cs with
    | none => none
    | some (y, cs) =>
      match parseClock cs with
      | none => none
      | some (hh, mm, ss, cs) =>
        match expectChar ' ' cs with
        | none => none
        | some cs =>
          match parseZone cs with
          | none => none
          | some (off, cs) =>
            if cs = [] ∧ 1 ≤ d ∧ d ≤ daysIn (mi + 1) ((y : Nat) : Int) ∧
                hh < 24 ∧ mm < 60 ∧ ss < 60 then
              some ⟨((y : Nat) : Int), mi + 1, d, hh, mm, ss, off⟩
            else none

def timeParseRFC1123Z (s : String) : Option GoTime :=
  parseRFC1123Zchars s.data

/-- `Time.MarshalJSON` (client_util.go): the formatted text as a JSON
string. -/
def timeMarshalJSON (t : GoTime) : JVal := .str (timeFormatRFC1123Z t)

/-- `Time.UnmarshalJSON` (client_util.go): the data must be a JSON
string (anything else fails `json.Unmarshal(data, &str)` or the
subsequent `time.Parse`), then `time.Parse(time.RFC1123Z, str)`. -/
def timeUnmarshalJSON : JVal → Option GoTime
  | .str s => timeParseRFC1123Z s
  | _ => none

/-- The instants on which the RFC1123Z layout is faithful: a valid
civil date with year 0..9999 and a whole-minute zone offset of less
than 100 hours. -/
def validRFC1123Z (t : GoTime) : Bool :=
  decide (1 ≤ t.month) && decide (t.month ≤ 12) &&
    decide (1 ≤ t.day) && decide (t.day ≤ daysIn t.month t.year) &&
    decide (t.hour < 24) && decide (t.minute < 60) && decide (t.second < 60) &&
    decide (0 ≤ t.year) && decide (t.year ≤ 9999) &&
    t.offset % 60 == 0 && decide (t.offset.natAbs ≤ 5999 * 60)

/-! ## `Metadata` and `Entry` (client_util.go)

`Metadata` is recursive through `Contents []Metadata`; the `Option`
distinguishes a nil slice (marshals as `null`) from a present one
(marshals as an array).  Decoding follows `encoding/json`: keys folded
in order over the zero value, unknown keys ignored, `null` leaves a
field unchanged, a type mismatch fails, and `Time` fields go through
`Time.UnmarshalJSON`.
-/

inductive Metadata where
  | mk (size hash rev : String) (thumbExists : Bool) (bytes : Int)
      (modified clientMTime : GoTime) (path : String) (isDir : Bool)
      (icon root mimeType : String) (revision : Nat)
      (contents : Option (List Metadata))

/-- The Go zero `Metadata` value. -/
def metaZero : Metadata :=
  .mk "" "" "" false 0 zeroGoTime zeroGoTime "" false "" "" "" 0 none

instance : Inhabited Metadata := ⟨metaZero⟩

mutual
/-- `json.Marshal` of a `Metadata` value: the fields in struct order. -/
def marshalMeta : Metadata → JVal
  | .mk size hash rev thumbExists bytes modified clientMTime path isDir
      icon root mimeType revision contents =>
    .obj [("size", .str size), ("hash", .str hash), ("rev", .str rev),
      ("thumb_exists", .bool thumbExists), ("bytes", .num bytes),
      ("modified", timeMarshalJSON modified),
      ("client_mtime", timeMarshalJSON clientMTime),
      ("path", .str path), ("is_dir", .bool isDir), ("icon", .str icon),
      ("root", .str root), ("mime_type", .str mimeType),
      ("revision", .num (revision : Int)),
      ("contents",
        match contents with
        | none => .null
        | some l => .arr (marshalMetaList l))]

def marshalMetaList : List Metadata → List JVal
  | [] => []
  | m :: rest => marshalMeta m :: marshalMetaList rest
end

/-- Decode a JSON value into a string field (`null` keeps the current
value, Go semantics). -/
def strOrKeep (cur : String) : JVal → Option String
  | .str s => some s
  | .null => some cur
  | _ => none

/-- Decode a JSON value into a bool field. -/
def boolOrKeep (cur : Bool) : JVal → Option Bool
  | .bool b => some b
  | .null => some cur
  | _ => none

/-- Decode a JSON value into an int64 field. -/
def intOrKeep (cur : Int) : JVal → Option Int
  | .num n => some n
  | .null => some cur
  | _ => none

/-- Decode a JSON value into a uint64 field: a negative number is a
decode error. -/
def natOrKeep (cur : Nat) : JVal → Option Nat
  | .num n => if 0 ≤ n then some n.toNat else none
  | .null => some cur
  | _ => none

/-- Replace the `Contents` field. -/
def setContents : Metadata → Option (List Metadata) → Metadata
  | .mk size hash rev te bt mo cm pa di ic ro mt rn _, c =>
    .mk size hash rev te bt mo cm pa di ic ro mt rn c

/-- Decode one non-recursive field of `Metadata` by key; unknown keys
are ignored. -/
def applyScalarField : Metadata → String → JVal → Option Metadata
  | .mk sz hs rv te bt mo cm pa di ic ro mt rn co, key, v =>
    if key = "size" then
      (strOrKeep sz v).map (fun x => .mk x hs rv te bt mo cm pa di ic ro mt rn co)
    else if key = "hash" then
      (strOrKeep hs v).map (fun x => .mk sz x rv te bt mo cm pa di ic ro mt rn co)
    else if key = "rev" then
      (strOrKeep rv v).map (fun x => .mk sz hs x te bt mo cm pa di ic ro mt rn co)
    else if key = "thumb_exists" then
      (boolOrKeep te v).map (fun x => .mk sz hs rv x bt mo cm pa di ic ro mt rn co)
    else if key = "bytes" then
      (intOrKeep bt v).map (fun x => .mk sz hs rv te x mo cm pa di ic ro mt rn co)
    else if key = "modified" then
      (timeUnmarshalJSON v).map (fun x => .mk sz hs rv te bt x cm pa di ic ro mt rn co)
    else if key = "client_mtime" then
      (timeUnmarshalJSON v).map (fun x => .mk sz hs rv te bt mo x pa di ic ro mt rn co)
    else if key = "path" then
      (strOrKeep pa v).map (fun x => .mk sz hs rv te bt mo cm x di ic ro mt rn co)
    else if key = "is_dir" then
      (boolOrKeep di v).map (fun x => .mk sz hs rv te bt mo cm pa x ic ro mt rn co)
    else if key = "icon" then
      (strOrKeep ic v).map (fun x => .mk sz hs rv te bt mo cm pa di x ro mt rn co)
    else if key = "root" then
      (strOrKeep ro v).map (fun x => .mk sz hs rv te bt mo cm pa di ic x mt rn co)
    else if key = "mime_type" then
      (strOrKeep mt v).map (fun x => .mk sz hs rv te bt mo cm pa di ic ro x rn co)
    else if key = "revision" then
      (natOrKeep rn v).map (fun x => .mk sz hs rv te bt mo cm pa di ic ro mt x co)
    else some (.mk sz hs rv te bt mo cm pa di ic ro mt rn co)

mutual
/-- Fold the keys of a JSON object into a `Metadata` value; `contents`
recurses. -/
def applyMetaFields : Metadata → List (String × JVal) → Option Metadata
  | m, [] => some m
  | m, (key, v) :: rest =>
    if key = "contents" then
      match v with
      | .null => applyMetaFields (setContents m none) rest
      | .arr elems =>
        match unmarshalMetaList elems with
        | none => none
        | some l => applyMetaFields (setContents m (some l)) rest
      | _ => none
    else
      match applyScalarField m key v with
      | none => none
      | some m2 => applyMetaFields m2 rest

/-- Decode a JSON array into `[]Metadata`, elementwise over fresh zero
values. -/
def unmarshalMetaList : List JVal → Option (List Metadata)
  | [] => some []
  | v :: rest =>
    match unmarshalMetaInto metaZero v with
    | none => none
    | some m =>
      match unmarshalMetaList rest with
      | none => none
      | some l => some (m :: l)

/-- `json.Unmarshal` into a `Metadata` value: an object is folded field
by field, `null` leaves the value untouched, anything else fails. -/
def unmarshalMetaInto : Metadata → JVal → Option Metadata
  | init, .obj fields => applyMetaFields init fields
  | init, .null => some init
  | _, _ => none
end

/-- An `Entry` (client_util.go): a `[path, metadata]` change pair. -/
structure Entry where
  path : String
  meta : Option Metadata

/-- `Entry.MarshalJSON`: `json.Marshal([]interface{}{e.Path, e.Meta})` —
a 2-element heterogeneous array, nil metadata as `null`. -/
def marshalEntry (e : Entry) : JVal :=
  .arr [.str e.path,
    match e.meta with
    | none => .null
    | some m => marshalMeta m]

/-- `Entry.UnmarshalJSON`: decode a JSON array elementwise into
`(&e.Path, &e.Meta)`; `null` metadata gives a nil pointer; elements past
the second decode into fresh interface values and are dropped. -/
def unmarshalEntry (v : JVal) : Option Entry :=
  match v with
  | .arr (p :: mv :: _) =>
    match (match p with | .str s => some s | .null => some "" | _ => none) with
    | none => none
    | some path =>
      match mv with
      | .null => some ⟨path, none⟩
      | _ => (unmarshalMetaInto metaZero mv).map (fun m => ⟨path, some m⟩)
  | _ => none

mutual
/-- Every timestamp inside the metadata is in the RFC1123Z-faithful
range. -/
def metaTimesValid : Metadata → Bool
  | .mk _ _ _ _ _ mo cm _ _ _ _ _ _ co =>
    validRFC1123Z mo && validRFC1123Z cm &&
      (match co with
       | none => true
       | some l => metaListTimesValid l)

def metaListTimesValid : List Metadata → Bool
  | [] => true
  | m :: rest => metaTimesValid m && metaListTimesValid rest
end

/-- Every timestamp inside the entry is in the RFC1123Z-faithful
range. -/
def entryTimesValid (e : Entry) : Bool :=
  match e.meta with
  | none => true
  | some m => metaTimesValid m

/-- A metadata value whose `modified` timestamp has year 10000. -/
def metaYear10000 : Metadata :=
  .mk "" "" "" false 0 ⟨10000, 1, 1, 0, 0, 0, 0⟩ zeroGoTime "" false "" "" "" 0 none

/-- A concrete entry used as a round-trip witness: a directory with one
child, realistic timestamps, and a non-default revision. -/
def entryExample : Entry :=
  ⟨"/photos",
    some (.mk "0 bytes" "h1" "7abc" false 0 ⟨2013, 3, 17, 22, 5, 9, -14400⟩
      ⟨2013, 3, 17, 22, 5, 9, -14400⟩ "/photos" true "folder" "dropbox"
      "" 7 (some [metaZero]))⟩

/-! ## `ChunkedUpload` (client.go, client_util.go) -/

/-- The `ChunkedUpload` state struct. -/
structure ChunkedUploadState where
  uploadId : String
  offset : Int
  expires : GoTime
  deriving Repr, DecidableEq, Inhabited

/-- The Go zero `ChunkedUpload` value. -/
def cuZero : ChunkedUploadState := ⟨"", 0, zeroGoTime⟩

/-- Decode one field of `ChunkedUpload` by key. -/
def applyCUField (st : ChunkedUploadState) (key : String) (v : JVal) :
    Option ChunkedUploadState :=
  if key = "upload_id" then
    (strOrKeep st.uploadId v).map (fun x => { st with uploadId := x })
  else if key = "offset" then
    (intOrKeep st.offset v).map (fun x => { st with offset := x })
  else if key = "expires" then
    (timeUnmarshalJSON v).map (fun x => { st with expires := x })
  else some st

def applyCUFields : ChunkedUploadState → List (String × JVal) →
    Option ChunkedUploadState
  | st, [] => some st
  | st, (k, v) :: rest =>
    match applyCUField st k v with
    | none => none
    | some st2 => applyCUFields st2 rest

/-- `json.Unmarshal(body, &state)` where `state` is a `ChunkedUpload`
value. -/
def unmarshalCU (v : JVal) : Option ChunkedUploadState :=
  match v with
  | .obj fields => applyCUFields cuZero fields
  | .null => some cuZero
  | _ => none

/-- `json.Unmarshal(body, apierr)` where `apierr` is a `*APIError`
struct pointer (not a double pointer): returns the resulting message. -/
def unmarshalAPIErrMsg (v : JVal) : Option String :=
  match v with
  | .obj fields => fields.foldl applyAPIErrField (some "")
  | .null => some ""
  | _ => none

/-- The error returned by an endpoint call. -/
inductive GoErr where
  | api (e : APIError)
  | apiNil
  | decode
  deriving Repr, DecidableEq

/-- Target decoder for `parseJSON(r, &state)`. -/
def decCUTarget : Body → Option ChunkedUploadState
  | .val v => unmarshalCU v
  | _ => none

/-- Response handling of `Client.ChunkedUpload` (client.go): on HTTP 400
the body is read once and decoded as BOTH the state shape and an
`APIError` (code 400) and both are returned; any other status goes
through `parseJSON`. -/
def chunkedUploadResp (status : Nat) (b : Body) :
    Option ChunkedUploadState × Option GoErr :=
  if status = 400 then
    match b with
    | .val v =>
      match unmarshalCU v with
      | none => (none, some .decode)
      | some st =>
        match unmarshalAPIErrMsg v with
        | none => (none, some .decode)
        | some msg => (some st, some (.api ⟨400, msg⟩))
    | _ => (none, some .decode)
  else
    match parseJSON decCUTarget status b with
    | .success st => (some st, none)
    | .apiError e => (none, some (.api e))
    | .nilAPIError => (none, some .apiNil)
    | .decodeError => (none, some .decode)

/-! ## `Client.Metadata` response handling (client.go) -/

/-- Target decoder for `getJSON(..., &meta)` where `meta : *Metadata`:
a JSON `null` leaves the pointer nil. -/
def decMetaTarget : Body → Option (Option Metadata)
  | .val .null => some none
  | .val v => (unmarshalMetaInto metaZero v).map some
  | _ => none

/-- Outcome of a `Client.Metadata` call. -/
inductive MetaCallResult where
  | res (meta : Option Metadata) (unmodified : Bool) (err : Option GoErr)
  | panics

/-- `Client.Metadata` from the HTTP response: `getJSON` then the 304
reinterpretation (`err.(*APIError)` + `apierr.Code == 304`).  A nil
`*APIError` — produced by `parseJSON` from a JSON `null` error body —
makes the `apierr.Code` read dereference a nil pointer and panic. -/
def metadataResp (status : Nat) (b : Body) : MetaCallResult :=
  match parseJSON decMetaTarget status b with
  | .success m => .res m false none
  | .apiError e =>
    if e.code = 304 then .res none true none
    else .res none false (some (.api e))
  | .nilAPIError => .panics
  | .decodeError => .res none false (some .decode)

-- Sanity examples against Go `path` behaviour.
example : goClean "abc//def//ghi" = "abc/def/ghi" := by decide
example : goClean "" = "." := by decide
example : goClean "/.." = "/" := by decide
example : goClean "abc/.." = "." := by decide
example : goClean "../../abc" = "../../abc" := by decide
example : goClean "/abc/def/../../.." = "/" := by decide
example : goJoin ["/", "dropbox", "a/b"] = "/dropbox/a/b" := by decide
example : filePath "dropbox" "a/./b/../c" = "/dropbox/a/c" := by decide
example : filePath "sandbox" "" = "/sandbox" := by decide

lemma segOK_of_ne (s : String) (h1 : ¬(s = "" ∨ s = ".")) (h2 : s ≠ "..") :
    segOK s = true := by
  push_neg at h1
  simp [segOK, bne_iff_ne, h1.1, h1.2, h2]

/-- On a rooted path the Clean stack machine only ever stacks real
elements. -/
lemma cleanSegsAux_rooted_good (l : List String) :
    ∀ acc : List String, (∀ x ∈ acc, segOK x = true) →
      ∀ x ∈ cleanSegsAux true acc l, segOK x = true := by
  induction l with
  | nil => intro acc hacc x hx; exact hacc x hx
  | cons s rest ih =>
    intro acc hacc x hx
    simp only [cleanSegsAux] at hx
    split at hx
    · exact ih acc hacc x hx
    · rename_i h1
      split at hx
      · split at hx
        · split at hx
          · split at hx
            · exact ih acc hacc x hx
            · rename_i hcontra; exact absurd trivial hcontra
          · exact ih acc.dropLast
              (fun y hy => hacc y (List.dropLast_subset _ hy)) x hx
        · split at hx
          · exact ih acc hacc x hx
          · rename_i hcontra; exact absurd trivial hcontra
      · rename_i h2
        refine ih (acc ++ [s]) ?_ x hx
        intro y hy
        rcases List.mem_append.1 hy with hy | hy
        · exact hacc y hy
        · rcases List.mem_singleton.1 hy with rfl
          exact segOK_of_ne y h1 h2

lemma ne_empty_of_isRooted (s : String) (h : isRooted s = true) : s ≠ "" := by
  intro he
  subst he
  simp [isRooted] at h

/-- `path.Clean` of a rooted path is `/` followed by the cleaned
segments. -/
lemma goClean_rooted (s : String) (h : isRooted s = true) :
    goClean s = "/" ++ joinSegs (cleanSegsAux true [] (splitSegs s)) := by
  have hne := ne_empty_of_isRooted s h
  by_cases hsegs : cleanSegsAux true [] (splitSegs s) = []
  · simp [goClean, hne, h, hsegs, joinSegs]
  · simp [goClean, hne, h, hsegs]

lemma isRooted_slash_append (x : String) : isRooted ("/" ++ x) = true := rfl

lemma isRooted_joinSegs_slash (l : List String) :
    isRooted (joinSegs ("/" :: l)) = true := by
  cases l with
  | nil => rfl
  | cons s rest => rfl

/-- C1 counterexample input: under root `"dropbox"` the caller path
`"../../etc"` normalizes to `"/etc"`, escaping above the storage root
`"/dropbox"` (the spec predicts `"/dropbox/etc"`). -/
theorem C1_filePath_counterexample :
    filePath "dropbox" "../../etc" = "/etc" ∧
      filePath "dropbox" "../../etc" ≠ "/dropbox/etc" := by
  constructor
  · decide
  · decide

/-- C1 (amended): `filePath` returns the path `Clean`ed against `/`:
the result is always `"/"` followed by the slash-join of a segment list
containing no `""`, `"."` or `".."` components — so `.`/`..` segments
are collapsed and the result never escapes the absolute root `/` — but
`..` segments in the caller path can climb above `"/<root>"`: for
`p = "../../etc"` under root `"dropbox"` the result is `"/etc"`, not
`"/dropbox/etc"`. -/
theorem C1_filePath_rooted_collapsed (root p : String) :
    filePath root p = "/" ++ joinSegs (filePathSegs root p) ∧
      (filePathSegs root p).all segOK = true ∧
      filePath "dropbox" "../../etc" = "/etc" := by
  have hj : isRooted (goJoin ["/", root, p]) = true := by
    show isRooted (goClean (joinSegs ["/", root, p])) = true
    rw [goClean_rooted _ (isRooted_joinSegs_slash [root, p])]
    exact isRooted_slash_append _
  refine ⟨goClean_rooted _ hj, ?_, by decide⟩
  rw [List.all_eq_true]
  exact fun x hx =>
    cleanSegsAux_rooted_good _ [] (by intro y hy; cases hy) x hx

/-! ## C2: `parseJSON` error-path decoding -/

/-- C2 counterexample: for a non-200 status (500) whose body is
non-empty but not valid JSON, `parseJSON` returns the JSON decode error
rather than an `APIError`, so the status code is not preserved. -/
theorem C2_parseJSON_counterexample :
    parseJSON (fun _ => some ()) 500 Body.malformed = ParseOutcome.decodeError ∧
      isAPIErrorWithCode (parseJSON (fun _ => some ()) 500 Body.malformed) 500 = false :=
  ⟨rfl, rfl⟩

/-- C2 (amended): for every non-200 status, `parseJSON` returns an
`APIError` carrying that status with the decoded message when the body
decodes as the `{error: string}` shape, and with an empty message when
the body is empty; but when the body is non-empty and does not decode
(malformed JSON, or JSON of the wrong shape) the decode error itself is
returned and the status code is lost. -/
theorem C2_parseJSON_status (α : Type) (dec : Body → Option α)
    (status : Nat) (h : status ≠ 200) :
    parseJSON dec status .empty = .apiError ⟨status, ""⟩ ∧
      (∀ b msg, decodeAPIErr b = .ok msg →
        parseJSON dec status b = .apiError ⟨status, msg⟩) ∧
      parseJSON dec status .malformed = .decodeError := by
  refine ⟨?_, ?_, ?_⟩
  · simp [parseJSON, h, decodeAPIErr]
  · intro b msg hb
    simp [parseJSON, h, hb]
  · simp [parseJSON, h, decodeAPIErr]

/-- Witness for C2: a 404 with body `{"error": "not found"}` produces
`APIError{404, "not found"}`. -/
theorem C2_parseJSON_status_witness :
    parseJSON (fun _ : Body => some ()) 404
        (.val (.obj [("error", .str "not found")])) = .apiError ⟨404, "not found"⟩ :=
  (C2_parseJSON_status Unit (fun _ => some ()) 404 (by decide)).2.1
    (.val (.obj [("error", .str "not found")])) "not found" (by decide)

/-! ## C5: `checkResponse` and 401 -/

/-- C5: for every response with status 401, `checkResponse` returns an
`AuthorizationError` (not the response) whose context is the request
path stripped of its leading `/1/` version segment, and the body is
drained and closed before returning. -/
theorem C5_checkResponse_401 (r : HTTPResponse) (rest : String)
    (h401 : r.statusCode = 401) (hpath : r.requestPath = "/1/" ++ rest) :
    checkResponse r = (.authError rest "bad or expired token", true) := by
  have hdata : ("/1/" ++ rest).data.drop 3 = rest.data := by
    have : ("/1/" ++ rest).data = '/' :: '1' :: '/' :: rest.data := rfl
    rw [this]
    rfl
  simp [checkResponse, h401, hpath, hdata]

/-- Witness for C5 at a concrete metadata request path. -/
theorem C5_checkResponse_401_witness :
    checkResponse ⟨401, "/1/metadata/dropbox/a.txt"⟩ =
      (.authError "metadata/dropbox/a.txt" "bad or expired token", true) :=
  C5_checkResponse_401 ⟨401, "/1/metadata/dropbox/a.txt"⟩ "metadata/dropbox/a.txt"
    rfl rfl

/-! ## C6: `signParam` -/

/-- C6: `signParam` fails with the "not authorized" error and leaves the
parameter set unchanged exactly when the session holds no access pair;
with an access pair present it delegates to the OAuth signer on that
pair and reports no error. -/
theorem C6_signParam (sign : Credentials → String → String → Params → Params)
    (s : Session) (method url : String) (params : Params) :
    (s.accessToken = none →
        signParam sign s method url params = (params, some "session not authorized")) ∧
      (∀ tok, s.accessToken = some tok →
        signParam sign s method url params = (sign tok method url params, none)) := by
  constructor
  · intro h
    simp [signParam, Session.Authorized, h]
  · intro tok h
    simp [signParam, Session.Authorized, h]

/-- Witness for C6: both branches at concrete sessions. -/
theorem C6_signParam_witness :
    signParam (fun _ _ _ ps => ps) ⟨none, none, ""⟩ "GET" "u" [("a", "b")] =
        ([("a", "b")], some "session not authorized") ∧
      signParam (fun _ _ _ ps => setParam ps "oauth_signature" "sig")
          ⟨none, some ⟨"tok", "sec"⟩, ""⟩ "GET" "u" [] =
        (setParam [] "oauth_signature" "sig", none) :=
  ⟨(C6_signParam (fun _ _ _ ps => ps) ⟨none, none, ""⟩ "GET" "u" [("a", "b")]).1 rfl,
   (C6_signParam (fun _ _ _ ps => setParam ps "oauth_signature" "sig")
      ⟨none, some ⟨"tok", "sec"⟩, ""⟩ "GET" "u" []).2 ⟨"tok", "sec"⟩ rfl⟩

/-! ## C9: optional endpoint parameters -/

/-- C9 counterexample: `CommitChunkedUpload` transmits the
endpoint-specific optional parameter `overwrite` even when the caller
supplies its default value `false`, contradicting "omitted parameters do
not appear in the signed request at all". -/
theorem C9_params_counterexample :
    lookupParam (commitChunkedUploadParams ⟨none, none, ""⟩ false "" "uid") "overwrite"
      = some "false" := rfl

/-- C9 (amended): in `Metadata` and `PutFile` every endpoint-specific
optional parameter appears in the signed parameter set iff the caller
supplies a non-default value (`file_limit` iff > 0, `hash`/`rev`
(/`parent_rev`) iff non-empty, `include_deleted` (/`overwrite`) iff the
flag is true, `list` iff the flag is non-default `false`); but
`CommitChunkedUpload` always transmits `overwrite` — as `"true"` or
`"false"` — even at its default. -/
theorem C9_optional_params (s : Session) (fileLimit : Int) (hash : String)
    (list deleted : Bool) (rev : String) (overwrite : Bool)
    (parentRev uploadId : String) :
    (lookupParam (metadataParams s fileLimit hash list deleted rev) "file_limit"
        = if fileLimit > 0 then some (formatInt fileLimit) else none) ∧
      (lookupParam (metadataParams s fileLimit hash list deleted rev) "hash"
        = if hash ≠ "" then some hash else none) ∧
      (lookupParam (metadataParams s fileLimit hash list deleted rev) "list"
        = if !list then some "false" else none) ∧
      (lookupParam (metadataParams s fileLimit hash list deleted rev) "include_deleted"
        = if deleted then some "true" else none) ∧
      (lookupParam (metadataParams s fileLimit hash list deleted rev) "rev"
        = if rev ≠ "" then some rev else none) ∧
      (lookupParam (putFileParams s overwrite parentRev) "overwrite"
        = if overwrite then some "true" else none) ∧
      (lookupParam (putFileParams s overwrite parentRev) "parent_rev"
        = if parentRev ≠ "" then some parentRev else none) ∧
      (lookupParam (commitChunkedUploadParams s overwrite parentRev uploadId) "overwrite"
        = some (formatBool overwrite)) := by
  simp only [metadataParams, putFileParams, commitChunkedUploadParams, makeParams]
  split_ifs <;> and_intros <;> rfl

/-! ## C10: access-token exchange entry points -/

/-- C10: a successful `GetAccessTokenCallback` unconditionally replaces
the session's access pair with the newly exchanged pair (for every
session, authorized or not), while `GetAccessToken` is a no-op on a
session that already holds an access pair. -/
theorem C10_access_exchange
    (call : Credentials → String → Except String Credentials)
    (s : Session) (rt : Credentials) (verifier : String) (cred : Credentials)
    (hcall : call rt verifier = .ok cred) :
    (GetAccessTokenCallback call s rt verifier).1.accessToken = some cred ∧
      (GetAccessTokenCallback call s rt verifier).2 = none ∧
      (s.Authorized = true → GetAccessToken call s = (s, none)) := by
  refine ⟨?_, ?_, ?_⟩
  · simp [GetAccessTokenCallback, hcall]
  · simp [GetAccessTokenCallback, hcall]
  · intro h
    simp [GetAccessToken, h]

/-- Witness for C10: the exchange overwrites an already-present access
pair, and `GetAccessToken` leaves the same session untouched. -/
theorem C10_access_exchange_witness :
    (GetAccessTokenCallback (fun _ _ => .ok ⟨"new", "cred"⟩)
        ⟨none, some ⟨"old", "cred"⟩, ""⟩ ⟨"req", "tok"⟩ "v").1.accessToken
        = some ⟨"new", "cred"⟩ ∧
      GetAccessToken (fun _ _ => .ok ⟨"new", "cred"⟩) ⟨none, some ⟨"old", "cred"⟩, ""⟩
        = (⟨none, some ⟨"old", "cred"⟩, ""⟩, none) :=
  ⟨(C10_access_exchange (fun _ _ => .ok ⟨"new", "cred"⟩)
      ⟨none, some ⟨"old", "cred"⟩, ""⟩ ⟨"req", "tok"⟩ "v" ⟨"new", "cred"⟩ rfl).1,
   (C10_access_exchange (fun _ _ => .ok ⟨"new", "cred"⟩)
      ⟨none, some ⟨"old", "cred"⟩, ""⟩ ⟨"req", "tok"⟩ "v" ⟨"new", "cred"⟩ rfl).2.2 rfl⟩


/-! ## C7 helper lemmas: digits -/

lemma natDigitsAux_small (fuel n : Nat) (h : n < 10) :
    natDigitsAux (fuel + 1) n = [decDigit n] := by
  simp [natDigitsAux, h]

lemma natDigits_small (n : Nat) (h : n < 10) : natDigits n = [decDigit n] :=
  natDigitsAux_small 23 n h

lemma natDigitsAux_two (fuel n : Nat) (h1 : 10 ≤ n) (h2 : n < 100) :
    natDigitsAux (fuel + 2) n = [decDigit (n / 10), decDigit (n % 10)] := by
  have hlt : ¬n < 10 := by omega
  have hd : n / 10 < 10 := by omega
  show natDigitsAux (fuel + 1 + 1) n = _
  rw [natDigitsAux, if_neg hlt, natDigitsAux_small fuel _ hd]
  rfl

lemma natDigitsAux_three (fuel n : Nat) (h1 : 100 ≤ n) (h2 : n < 1000) :
    natDigitsAux (fuel + 3) n =
      [decDigit (n / 100), decDigit (n / 10 % 10), decDigit (n % 10)] := by
  have hlt : ¬n < 10 := by omega
  show natDigitsAux (fuel + 2 + 1) n = _
  rw [natDigitsAux, if_neg hlt, natDigitsAux_two fuel _ (by omega) (by omega)]
  have e : n / 10 / 10 = n / 100 := by omega
  rw [e]
  rfl

lemma natDigitsAux_four (fuel n : Nat) (h1 : 1000 ≤ n) (h2 : n < 10000) :
    natDigitsAux (fuel + 4) n =
      [decDigit (n / 1000), decDigit (n / 100 % 10),
       decDigit (n / 10 % 10), decDigit (n % 10)] := by
  have hlt : ¬n < 10 := by omega
  show natDigitsAux (fuel + 3 + 1) n = _
  rw [natDigitsAux, if_neg hlt, natDigitsAux_three fuel _ (by omega) (by omega)]
  have e1 : n / 10 / 100 = n / 1000 := by omega
  have e2 : n / 10 / 10 = n / 100 := by omega
  rw [e1, e2]
  rfl

lemma digitVal_decDigit (n : Nat) (h : n < 10) : digitVal (decDigit n) = some n := by
  interval_cases n <;> rfl

lemma appendNat_two (n : Nat) (h : n < 100) :
    appendNat 2 n = [decDigit (n / 10), decDigit (n % 10)] := by
  by_cases h10 : n < 10
  · rw [appendNat, natDigits_small n h10, Nat.div_eq_of_lt h10, Nat.mod_eq_of_lt h10]
    rfl
  · rw [appendNat, show natDigits n = natDigitsAux (22 + 2) n from rfl,
      natDigitsAux_two 22 n (by omega) h]
    rfl

lemma appendNat_four (n : Nat) (h : n < 10000) :
    appendNat 4 n =
      [decDigit (n / 1000), decDigit (n / 100 % 10),
       decDigit (n / 10 % 10), decDigit (n % 10)] := by
  by_cases c1 : n < 10
  · rw [appendNat, natDigits_small n c1]
    have e1 : n / 1000 = 0 := by omega
    have e2 : n / 100 % 10 = 0 := by omega
    have e3 : n / 10 % 10 = 0 := by omega
    have e4 : n % 10 = n := by omega
    rw [e1, e2, e3, e4]
    rfl
  · by_cases c2 : n < 100
    · rw [appendNat, show natDigits n = natDigitsAux (22 + 2) n from rfl,
        natDigitsAux_two 22 n (by omega) c2]
      have e1 : n / 1000 = 0 := by omega
      have e2 : n / 100 % 10 = 0 := by omega
      have e3 : n / 10 % 10 = n / 10 := by omega
      rw [e1, e2, e3]
      rfl
    · by_cases c3 : n < 1000
      · rw [appendNat, show natDigits n = natDigitsAux (21 + 3) n from rfl,
          natDigitsAux_three 21 n (by omega) c3]
        have e1 : n / 1000 = 0 := by omega
        have e2 : n / 100 % 10 = n / 100 := by omega
        rw [e1, e2]
        rfl
      · rw [appendNat, show natDigits n = natDigitsAux (20 + 4) n from rfl,
          natDigitsAux_four 20 n (by omega) h]
        rfl

lemma parse2_appendNat (n : Nat) (h : n < 100) (rest : List Char) :
    parse2 (appendNat 2 n ++ rest) = some (n, rest) := by
  rw [appendNat_two n h]
  have h1 : n / 10 < 10 := by omega
  have h2 : n % 10 < 10 := by omega
  simp only [List.cons_append, List.nil_append, parse2,
    digitVal_decDigit _ h1, digitVal_decDigit _ h2]
  have : n / 10 * 10 + n % 10 = n := by omega
  rw [this]

lemma parse4_appendNat (n : Nat) (h : n < 10000) (rest : List Char) :
    parse4 (appendNat 4 n ++ rest) = some (n, rest) := by
  rw [appendNat_four n h]
  have h1 : n / 1000 < 10 := by omega
  have h2 : n / 100 % 10 < 10 := by omega
  have h3 : n / 10 % 10 < 10 := by omega
  have h4 : n % 10 < 10 := by omega
  simp only [List.cons_append, List.nil_append, parse4,
    digitVal_decDigit _ h1, digitVal_decDigit _ h2,
    digitVal_decDigit _ h3, digitVal_decDigit _ h4]
  have : ((n / 1000 * 10 + n / 100 % 10) * 10 + n / 10 % 10) * 10 + n % 10 = n := by
    omega
  rw [this]

lemma appendInt_nonneg (w : Nat) (y : Int) (h : 0 ≤ y) :
    appendInt w y = appendNat w y.toNat := by
  rw [appendInt, if_neg (by omega)]

/-! ## C7 helper lemmas: name tables, zone -/

lemma lookupTab_day (w : Nat) (h : w < 7) (rest : List Char) :
    lookupTab shortDayNames 0 ((shortDayNames.getD w "Sun").data ++ rest) =
      some (w, rest) := by
  interval_cases w <;> rfl

lemma lookupTab_month (w : Nat) (h : w < 12) (rest : List Char) :
    lookupTab shortMonthNames 0 ((shortMonthNames.getD w "Jan").data ++ rest) =
      some (w, rest) := by
  interval_cases w <;> rfl

lemma weekdayIdx_lt (y : Int) (m d : Nat) : weekdayIdx y m d < 7 :=
  Nat.mod_lt _ (by decide)

lemma daysIn_le_31 (m : Nat) (y : Int) : daysIn m y ≤ 31 := by
  rw [daysIn]
  split_ifs <;> omega

lemma expectChar_cons (c : Char) (cs : List Char) :
    expectChar c (c :: cs) = some cs := by
  simp [expectChar]

lemma parseZone_fmtZone (off zm : Int) (hoff : off = zm * 60)
    (hzm : zm.natAbs ≤ 5999) (rest : List Char) :
    parseZone (fmtZone off ++ rest) = some (off, rest) := by
  rcases le_or_lt 0 zm with hz | hz
  · have hzone : zoneMinutes off = zm := by
      rw [zoneMinutes, if_neg (by omega)]
      have e1 : off.toNat = zm.toNat * 60 := by omega
      rw [e1, Nat.mul_div_cancel _ (by omega)]
      omega
    have hb1 : zm.toNat / 60 < 100 := by omega
    have hb2 : zm.toNat % 60 < 100 := by omega
    rw [fmtZone]
    simp only [hzone, if_neg (by omega : ¬zm < 0), List.cons_append,
      List.append_assoc, parseZone, parse2_appendNat _ hb1,
      parse2_appendNat _ hb2]
    have e : ((zm.toNat / 60 * 3600 + zm.toNat % 60 * 60 : Nat) : Int) = off := by
      omega
    simp [e]
  · have hzone : zoneMinutes off = zm := by
      rw [zoneMinutes, if_pos (by omega)]
      have e1 : off.natAbs = zm.natAbs * 60 := by omega
      rw [e1, Nat.mul_div_cancel _ (by omega)]
      omega
    have hb1 : zm.natAbs / 60 < 100 := by omega
    have hb2 : zm.natAbs % 60 < 100 := by omega
    rw [fmtZone]
    simp only [hzone, if_pos hz, List.cons_append, List.append_assoc,
      parseZone, parse2_appendNat _ hb1, parse2_appendNat _ hb2]
    have e : -((zm.natAbs / 60 * 3600 + zm.natAbs % 60 * 60 : Nat) : Int) = off := by
      omega
    simp only [e]
    simp

lemma parseZone_fmtZone_nil (off zm : Int) (hoff : off = zm * 60)
    (hzm : zm.natAbs ≤ 5999) :
    parseZone (fmtZone off) = some (off, []) := by
  have h := parseZone_fmtZone off zm hoff hzm []
  simpa using h

/-! ## C7 helper lemmas: layout stages -/

lemma parseDayMonth_fmt (w : Nat) (hw : w < 7) (d : Nat) (hd : d < 100)
    (mi : Nat) (hmi : mi < 12) (rest : List Char) :
    parseDayMonth ((shortDayNames.getD w "Sun").data ++
        ',' :: ' ' :: (appendNat 2 d ++
          ' ' :: ((shortMonthNames.getD mi "Jan").data ++ rest))) =
      some (d, mi, rest) := by
  simp only [parseDayMonth, lookupTab_day w hw, expectChar_cons,
    parse2_appendNat d hd, lookupTab_month mi hmi]

lemma parseYearSp_fmt (y : Nat) (hy : y < 10000) (rest : List Char) :
    parseYearSp (' ' :: (appendNat 4 y ++ ' ' :: rest)) = some (y, rest) := by
  simp only [parseYearSp, expectChar_cons, parse4_appendNat y hy]

lemma parseClock_fmt (hh mm ss : Nat) (h1 : hh < 100) (h2 : mm < 100)
    (h3 : ss < 100) (rest : List Char) :
    parseClock (appendNat 2 hh ++
        ':' :: (appendNat 2 mm ++ ':' :: (appendNat 2 ss ++ rest))) =
      some (hh, mm, ss, rest) := by
  simp only [parseClock, expectChar_cons, parse2_appendNat hh h1,
    parse2_appendNat mm h2, parse2_appendNat ss h3]

/-! ## C7 -/

/-- C7 counterexample: the instant year 10000, Jan 1, 00:00:00 +0000 has
a defined numeric zone offset, but marshaling and unmarshaling it fails:
`Format` emits a five-digit year and `Parse` reads exactly four year
digits. -/
theorem C7_time_roundtrip_counterexample :
    timeUnmarshalJSON (timeMarshalJSON ⟨10000, 1, 1, 0, 0, 0, 0⟩) = none := by
  decide

/-- The RFC1123Z marshal/unmarshal round trip on the valid range. -/
lemma timeRoundtripRFC1123Z (t : GoTime) (h : validRFC1123Z t = true) :
    timeUnmarshalJSON (timeMarshalJSON t) = some t := by
  simp only [validRFC1123Z, Bool.and_eq_true, decide_eq_true_eq,
    beq_iff_eq] at h
  obtain ⟨⟨⟨⟨⟨⟨⟨⟨⟨⟨hm1, hm2⟩, hd1⟩, hd2⟩, hh⟩, hmin⟩, hs⟩, hy1⟩, hy2⟩, hdvd⟩, habs⟩ := h
  show timeParseRFC1123Z (timeFormatRFC1123Z t) = some t
  show parseRFC1123Zchars (fmtRFC1123Z t) = some t
  have hdlt : t.day < 100 := by
    have := daysIn_le_31 t.month t.year
    omega
  have hylt : t.year.toNat < 10000 := by omega
  have hmi : t.month - 1 < 12 := by omega
  have hzdvd : (60 : Int) ∣ t.offset := Int.dvd_of_emod_eq_zero hdvd
  have hoff : t.offset = t.offset / 60 * 60 := (Int.ediv_mul_cancel hzdvd).symm
  have hzabs : (t.offset / 60).natAbs ≤ 5999 := by omega
  rw [fmtRFC1123Z, appendInt_nonneg 4 t.year hy1]
  simp only [List.append_assoc, List.cons_append, List.nil_append]
  simp only [parseRFC1123Zchars,
    parseDayMonth_fmt _ (weekdayIdx_lt t.year t.month t.day) _ hdlt _ hmi,
    parseYearSp_fmt _ hylt,
    parseClock_fmt t.hour t.minute t.second (by omega) (by omega) (by omega),
    expectChar_cons, parseZone_fmtZone_nil t.offset (t.offset / 60) hoff hzabs]
  have hm : t.month - 1 + 1 = t.month := by omega
  have hyy : ((t.year.toNat : Nat) : Int) = t.year := by omega
  rw [hm, hyy, if_pos ⟨trivial, hd1, hd2, hh, hmin, hs⟩]

/-- C7 (amended): marshaling a `Time` to JSON and unmarshaling the
result recovers the civil fields and zone offset — hence the instant to
one-second resolution — for every instant whose year lies in 0..9999 and
whose zone offset is a whole number of minutes below 100 hours in
magnitude; outside that range (e.g. year 10000) the round trip fails. -/
theorem C7_time_roundtrip (t : GoTime) (h : validRFC1123Z t = true) :
    timeUnmarshalJSON (timeMarshalJSON t) = some t :=
  timeRoundtripRFC1123Z t h

/-- Witness for C7 at the Go reference time. -/
theorem C7_time_roundtrip_witness :
    validRFC1123Z ⟨2006, 1, 2, 15, 4, 5, -25200⟩ = true ∧
      timeUnmarshalJSON (timeMarshalJSON ⟨2006, 1, 2, 15, 4, 5, -25200⟩) =
        some ⟨2006, 1, 2, 15, 4, 5, -25200⟩ :=
  ⟨by decide, C7_time_roundtrip ⟨2006, 1, 2, 15, 4, 5, -25200⟩ (by decide)⟩


/-! ## C3: chunked-upload 400 -/

/-- C3: for every chunked-upload continuation response with status 400
whose body decodes both as the upload-state shape and as an `APIError`,
`ChunkedUpload` returns both the populated state and a non-nil
`APIError` carrying code 400. -/
theorem C3_chunkedUpload_400 (v : JVal) (st : ChunkedUploadState) (msg : String)
    (hst : unmarshalCU v = some st) (hmsg : unmarshalAPIErrMsg v = some msg) :
    chunkedUploadResp 400 (.val v) = (some st, some (.api ⟨400, msg⟩)) := by
  simp [chunkedUploadResp, hst, hmsg]

/-- Witness for C3: `{"error":"offset mismatch","offset":512}` yields
state offset 512 together with `APIError{400, "offset mismatch"}`. -/
theorem C3_chunkedUpload_400_witness :
    chunkedUploadResp 400
        (.val (.obj [("error", .str "offset mismatch"), ("offset", .num 512)])) =
      (some ⟨"", 512, zeroGoTime⟩, some (.api ⟨400, "offset mismatch"⟩)) :=
  C3_chunkedUpload_400 _ ⟨"", 512, zeroGoTime⟩ "offset mismatch" rfl rfl

/-! ## C4: metadata 304 -/

/-- C4 counterexample: a 500 response whose body is JSON `null` decodes
to a nil `*APIError`, and `Metadata`'s `apierr.Code` read then panics
instead of propagating the error with `unmodified = false`. -/
theorem C4_metadata_counterexample :
    metadataResp 500 (.val .null) = .panics := rfl

/-- C4 (amended): whenever the response produces an `APIError` with
status 304, `Metadata` returns `(nil metadata, unmodified = true,
err = nil)`, suppressing the error; every other `APIError` and every
decode error is propagated unchanged with `unmodified = false`; but a
nil `*APIError` (from a JSON `null` error body) makes the 304 check
panic rather than propagate. -/
theorem C4_metadata_304 (status : Nat) (b : Body) :
    (∀ msg, parseJSON decMetaTarget status b = .apiError ⟨304, msg⟩ →
        metadataResp status b = .res none true none) ∧
      (∀ e, parseJSON decMetaTarget status b = .apiError e → e.code ≠ 304 →
        metadataResp status b = .res none false (some (.api e))) ∧
      (parseJSON decMetaTarget status b = .decodeError →
        metadataResp status b = .res none false (some .decode)) ∧
      (parseJSON decMetaTarget status b = .nilAPIError →
        metadataResp status b = .panics) := by
  refine ⟨?_, ?_, ?_, ?_⟩
  · intro msg hp
    simp [metadataResp, hp]
  · intro e hp hne
    simp [metadataResp, hp, hne]
  · intro hp
    simp [metadataResp, hp]
  · intro hp
    simp [metadataResp, hp]

/-- Witness for C4: an empty-body 304 is suppressed as unmodified; an
empty-body 500 is propagated as `APIError{500, ""}`. -/
theorem C4_metadata_304_witness :
    metadataResp 304 .empty = .res none true none ∧
      metadataResp 500 .empty = .res none false (some (.api ⟨500, ""⟩)) :=
  ⟨(C4_metadata_304 304 .empty).1 "" rfl,
   (C4_metadata_304 500 .empty).2.1 ⟨500, ""⟩ rfl (by decide)⟩

/-! ## C8: Entry round trip -/

mutual
/-- `Metadata` marshal/unmarshal round trip under valid timestamps. -/
lemma metaRoundtrip : ∀ (m : Metadata), metaTimesValid m = true →
    unmarshalMetaInto metaZero (marshalMeta m) = some m
  | .mk sz hs rv te bt mo cm pa di ic ro mt rn none, h => by
    simp only [metaTimesValid, Bool.and_eq_true] at h
    obtain ⟨⟨hmo, hcm⟩, -⟩ := h
    have h0 : (0 : Int) ≤ (rn : Int) := by omega
    have htn : ((rn : Int)).toNat = rn := by omega
    simp [marshalMeta, unmarshalMetaInto, applyMetaFields, applyScalarField,
      metaZero, strOrKeep, boolOrKeep, intOrKeep, natOrKeep, setContents,
      timeRoundtripRFC1123Z mo hmo, timeRoundtripRFC1123Z cm hcm, h0, htn]
  | .mk sz hs rv te bt mo cm pa di ic ro mt rn (some l), h => by
    simp only [metaTimesValid, Bool.and_eq_true] at h
    obtain ⟨⟨hmo, hcm⟩, hl⟩ := h
    have h0 : (0 : Int) ≤ (rn : Int) := by omega
    have htn : ((rn : Int)).toNat = rn := by omega
    simp [marshalMeta, unmarshalMetaInto, applyMetaFields, applyScalarField,
      metaZero, strOrKeep, boolOrKeep, intOrKeep, natOrKeep, setContents,
      timeRoundtripRFC1123Z mo hmo, timeRoundtripRFC1123Z cm hcm, h0, htn,
      metaListRoundtrip l hl]

/-- Elementwise round trip for `[]Metadata`. -/
lemma metaListRoundtrip : ∀ (l : List Metadata), metaListTimesValid l = true →
    unmarshalMetaList (marshalMetaList l) = some l
  | [], _ => rfl
  | m :: rest, h => by
    simp only [metaListTimesValid, Bool.and_eq_true] at h
    obtain ⟨h1, h2⟩ := h
    simp [marshalMetaList, unmarshalMetaList, metaRoundtrip m h1,
      metaListRoundtrip rest h2]
end

/-- `marshalMeta` always produces a JSON object. -/
lemma marshalMeta_obj : ∀ m : Metadata, ∃ fields, marshalMeta m = JVal.obj fields
  | .mk sz hs rv te bt mo cm pa di ic ro mt rn none =>
    ⟨[("size", .str sz), ("hash", .str hs), ("rev", .str rv),
      ("thumb_exists", .bool te), ("bytes", .num bt),
      ("modified", timeMarshalJSON mo), ("client_mtime", timeMarshalJSON cm),
      ("path", .str pa), ("is_dir", .bool di), ("icon", .str ic),
      ("root", .str ro), ("mime_type", .str mt), ("revision", .num (rn : Int)),
      ("contents", JVal.null)], by simp [marshalMeta]⟩
  | .mk sz hs rv te bt mo cm pa di ic ro mt rn (some l) =>
    ⟨[("size", .str sz), ("hash", .str hs), ("rev", .str rv),
      ("thumb_exists", .bool te), ("bytes", .num bt),
      ("modified", timeMarshalJSON mo), ("client_mtime", timeMarshalJSON cm),
      ("path", .str pa), ("is_dir", .bool di), ("icon", .str ic),
      ("root", .str ro), ("mime_type", .str mt), ("revision", .num (rn : Int)),
      ("contents", JVal.arr (marshalMetaList l))], by simp [marshalMeta]⟩

/-- C8 counterexample: an entry whose metadata carries a `modified`
timestamp in year 10000 marshals fine but fails to unmarshal, so the
round trip does not recover the entry. -/
theorem C8_entry_roundtrip_counterexample :
    unmarshalEntry (marshalEntry ⟨"/a.txt", some metaYear10000⟩) = none := by
  rfl

/-- C8 (amended): marshaling a `ChangeEntry` as the 2-element array
`[path, metadata-or-null]` and unmarshaling recovers path and metadata
exactly — unconditionally when the metadata is absent, and whenever
every timestamp embedded in the metadata is RFC1123Z-representable
(year 0..9999, whole-minute zone offset); a timestamp outside that
range (e.g. year 10000) makes the round trip fail. -/
theorem C8_entry_roundtrip (e : Entry) (h : entryTimesValid e = true) :
    unmarshalEntry (marshalEntry e) = some e := by
  obtain ⟨path, meta⟩ := e
  cases meta with
  | none => simp [marshalEntry, unmarshalEntry]
  | some m =>
    have hm : metaTimesValid m = true := by
      simpa [entryTimesValid] using h
    obtain ⟨fields, hf⟩ := marshalMeta_obj m
    simp only [marshalEntry, unmarshalEntry, hf]
    rw [← hf, metaRoundtrip m hm]
    rfl

/-- Witness for C8: a directory entry with one child and real
timestamps round-trips, and an absent-metadata entry round-trips. -/
theorem C8_entry_roundtrip_witness :
    entryTimesValid entryExample = true ∧
      unmarshalEntry (marshalEntry entryExample) = some entryExample ∧
      unmarshalEntry (marshalEntry ⟨"/gone", none⟩) = some ⟨"/gone", none⟩ :=
  ⟨by decide, C8_entry_roundtrip entryExample (by decide),
    C8_entry_roundtrip ⟨"/gone", none⟩ (by decide)⟩

end DropboxGo
